import Mathlib

/-!
# Verification of the academic-record dashboard aggregation and storage logic

Shallow embedding of `src/app.py` (an academic grade/attendance dashboard).
Numeric values (scores, credit weights, attendance percentages) are modelled
with exact rational arithmetic `ℚ` in place of the source's floating point;
all claims settled here are algebraic/structural, not about rounding error of
binary floats.  Pandas `groupby('semester')` is embedded as "sort the distinct
keys ascending, then aggregate each group", which is the documented behaviour
of `groupby` with its default `sort=True`.
-/

namespace Akademik

/-- A grade entry as read from the `grades` table and fed to the aggregation
code (`src/app.py`, Dashboard and "Nilai & IPK" views).  `semester` is the
term, `sks` the credit weight, `grade` the score. -/
structure GradeEntry where
  semester : Int
  course_code : String
  course_name : String
  sks : ℚ
  grade : ℚ
deriving DecidableEq, Repr

/-- The distinct semesters present in the input, in ascending order: the group
keys produced by pandas `groupby('semester')` (default `sort=True`). -/
def distinctTerms (entries : List GradeEntry) : List Int :=
  ((entries.map (·.semester)).dedup).insertionSort (· ≤ ·)

/-- The rows of one semester's group: `gp[gp['semester'] == t]`. -/
def termEntries (entries : List GradeEntry) (t : Int) : List GradeEntry :=
  entries.filter (fun e => e.semester == t)

/-- Per-term `weighted` aggregate: `sum` of `grade * sks` over the group
(`gp['weighted'] = gp['grade'] * gp['sks']; ... agg({'weighted':'sum'})`,
src/app.py lines 144-145 and 199-200). -/
def weightedSum (entries : List GradeEntry) (t : Int) : ℚ :=
  ((termEntries entries t).map (fun e => e.grade * e.sks)).sum

/-- Per-term `sks` aggregate: `agg({'sks':'sum'})`. -/
def creditSum (entries : List GradeEntry) (t : Int) : ℚ :=
  ((termEntries entries t).map (·.sks)).sum

/-- Per-term average: `ip_sem['ip'] = ip_sem['weighted']/ip_sem['sks']`
(src/app.py lines 146 and 201).  In ℚ, division by zero yields 0; the source
has no zero-denominator guard (pandas would produce inf/NaN there, also
without raising). -/
def termIP (entries : List GradeEntry) (t : Int) : ℚ :=
  weightedSum entries t / creditSum entries t

/-- One row of the per-semester summary frame `ip_sem` after
`reset_index()` and `ip_sem['change'] = ip_sem['ip'].diff()`
(src/app.py lines 199-209). -/
structure TermSummary where
  term : Int
  weighted_sum : ℚ
  credit_sum : ℚ
  term_average : ℚ
  change : Option ℚ
deriving DecidableEq, Repr

/-- A summary row before the `diff()` column is added. -/
def baseSummary (entries : List GradeEntry) (t : Int) : TermSummary :=
  { term := t
    weighted_sum := weightedSum entries t
    credit_sum := creditSum entries t
    term_average := termIP entries t
    change := none }

/-- `ip_sem['change'] = ip_sem['ip'].diff()` (src/app.py line 209): the first
row gets NaN (modelled `none`), every later row gets its `ip` minus the
previous row's `ip`. -/
def annotateChange (prev : Option ℚ) : List TermSummary → List TermSummary
  | [] => []
  | s :: rest =>
      { s with change := prev.map (fun p => s.term_average - p) } ::
        annotateChange (some s.term_average) rest

/-- The full per-semester summary computation of the "Nilai & IPK" view
(src/app.py lines 199-209): group by semester (keys ascending), aggregate
`weighted` and `sks`, divide, then add the `diff()` column. -/
def computeTermSummaries (entries : List GradeEntry) : List TermSummary :=
  annotateChange none ((distinctTerms entries).map (baseSummary entries))

/-- The Dashboard IPK computation (src/app.py lines 143-147):
`ipk = (ip_per_sem['ip'] * ip_per_sem['sks']).sum() / ip_per_sem['sks'].sum()`
where `ip_per_sem` is the per-semester aggregate frame. -/
def ipk (entries : List GradeEntry) : ℚ :=
  ((distinctTerms entries).map (fun t => termIP entries t * creditSum entries t)).sum /
    ((distinctTerms entries).map (fun t => creditSum entries t)).sum

/-- The spec's own formula for the overall average, stated over the derived
`TermSummary` rows: `Σ(term_average × credit_sum) / Σ(credit_sum)` across all
terms.  Written from the spec's words, to be compared with `ipk`. -/
def overallAverageSpec (rows : List TermSummary) : ℚ :=
  (rows.map (fun s => s.term_average * s.credit_sum)).sum /
    (rows.map (fun s => s.credit_sum)).sum

/-- Rounding to two decimals, as Python's `round(x, 2)`.  (Python rounds
half-to-even; `round` here rounds half-up.  The two agree at every input
whose hundredths-scaled value is not an exact half, which covers every
concrete value appearing below.) -/
def round2 (q : ℚ) : ℚ := (round (q * 100) : ℤ) / 100

/-- `attendance['percent'].mean()`: arithmetic mean of the percent column. -/
def percentMean (ps : List ℚ) : ℚ := ps.sum / (ps.length : ℚ)

/-- The Dashboard attendance metric (src/app.py line 153):
`avg_att = round(attendance['percent'].mean(), 2) if not attendance.empty
else 0`. -/
def avg_att (ps : List ℚ) : ℚ :=
  if ps = [] then 0 else round2 (percentMean ps)

/-! ## The record store and its operations

The sqlite tables of `src/app.py` (`users`, `grades`, `attendance`) modelled
as lists of rows; the auto-assigned `id` column is left implicit (row order
stands in for insertion order).  `created_at` / timestamps are opaque `Nat`
values. -/

/-- A row of the `users` table. -/
structure UserRow where
  username : String
  password : String
  full_name : String
deriving DecidableEq, Repr

/-- A row of the `grades` table.  `grade` is `Option ℚ` because the column is
nullable: an import whose frame lacks the `grade` column leaves it NULL
(sqlite fills unlisted columns of an INSERT with NULL). -/
structure GradeRow where
  semester : Int
  course_code : String
  course_name : String
  sks : ℚ
  grade : Option ℚ
  created_at : Nat
deriving DecidableEq, Repr

/-- A row of the `attendance` table as recreated by an import
(`to_sql(..., if_exists='replace')` drops and recreates the table with the
uploaded frame's columns: `course_code, course_name, percent`). -/
structure AttRow where
  course_code : String
  course_name : String
  percent : ℚ
deriving DecidableEq, Repr

/-- The persistent store: the three tables of `init_db`. -/
structure DB where
  users : List UserRow
  grades : List GradeRow
  attendance : List AttRow
deriving DecidableEq, Repr

/-- One row of an uploaded grade CSV after `pd.read_csv`.  `grade = none`
models a file whose `grade` column is missing (pandas parses any header; no
column validation happens anywhere in the source). -/
structure GradeCSVRow where
  semester : Int
  course_code : String
  course_name : String
  sks : ℚ
  grade : Option ℚ
deriving DecidableEq, Repr

/-- The stamping done inside `insert_grades`:
`df['created_at'] = datetime.now().isoformat()` assigns the single value
`now` to every row of the frame (src/app.py line 78). -/
def stampRow (now : Nat) (r : GradeCSVRow) : GradeRow :=
  { semester := r.semester
    course_code := r.course_code
    course_name := r.course_name
    sks := r.sks
    grade := r.grade
    created_at := now }

/-- `insert_grades` (src/app.py lines 75-80): stamp the frame with one
timestamp, then `df.to_sql('grades', conn, if_exists='append')` — rows are
appended to the existing table, nothing else changes. -/
def insert_grades (db : DB) (df : List GradeCSVRow) (now : Nat) : DB :=
  { db with grades := db.grades ++ df.map (stampRow now) }

/-- The attendance import (src/app.py line 188):
`df2.to_sql('attendance', conn, if_exists='replace')` — drop the table and
recreate it holding exactly the uploaded frame. -/
def replaceAttendance (db : DB) (df : List AttRow) : DB :=
  { db with attendance := df }

/-- The Admin reset action (src/app.py lines 250-256):
`DELETE FROM grades; DELETE FROM attendance` — the `users` table is not
touched. -/
def adminReset (db : DB) : DB :=
  { db with grades := [], attendance := [] }

/-- Concrete three-entry input, the scenario of spec §8: two courses in term 1
(credits 3 and 2, scores 80 and 90) and one in term 2 (credit 4, score 75),
listed out of term order. -/
def exS : List GradeEntry :=
  [⟨1, "MK101", "Algoritma", 3, 80⟩, ⟨2, "MK201", "Basis Data", 4, 75⟩,
    ⟨1, "MK102", "Kalkulus", 2, 90⟩]

/-- Concrete single-entry input whose only term has zero total credit. -/
def exZ : List GradeEntry := [⟨1, "MK100", "Seminar", 0, 80⟩]

/-! ## Helper lemmas -/

theorem annotateChange_length (p : Option ℚ) (l : List TermSummary) :
    (annotateChange p l).length = l.length := by
  induction l generalizing p with
  | nil => rfl
  | cons s rest ih => simp [annotateChange, ih]

/-- `annotateChange` only writes the `change` field: any function of a row
that ignores `change` is unchanged on every row. -/
theorem annotateChange_map {α : Type} (f : TermSummary → α)
    (hf : ∀ (s : TermSummary) (c : Option ℚ), f { s with change := c } = f s)
    (p : Option ℚ) (l : List TermSummary) :
    (annotateChange p l).map f = l.map f := by
  induction l generalizing p with
  | nil => rfl
  | cons s rest ih => simp [annotateChange, ih, hf]

theorem annotateChange_change_zero (p : Option ℚ) (l : List TermSummary)
    (h : 0 < (annotateChange p l).length) :
    ((annotateChange p l).get ⟨0, h⟩).change =
      p.map (fun q => ((annotateChange p l).get ⟨0, h⟩).term_average - q) := by
  cases l with
  | nil => simp [annotateChange] at h
  | cons s rest => simp [annotateChange]

theorem annotateChange_change_succ (p : Option ℚ) (l : List TermSummary)
    (i : Nat) (h : i + 1 < (annotateChange p l).length) :
    ((annotateChange p l).get ⟨i + 1, h⟩).change =
      some (((annotateChange p l).get ⟨i + 1, h⟩).term_average -
        ((annotateChange p l).get ⟨i, Nat.lt_of_succ_lt h⟩).term_average) := by
  induction l generalizing p i with
  | nil => simp [annotateChange] at h
  | cons s rest ih =>
    cases i with
    | zero =>
      have h0 : 0 < (annotateChange (some s.term_average) rest).length := by
        simpa [annotateChange] using h
      have := annotateChange_change_zero (some s.term_average) rest h0
      simpa [annotateChange] using this
    | succ k =>
      have hk : k + 1 < (annotateChange (some s.term_average) rest).length := by
        simpa [annotateChange] using h
      have := ih (some s.term_average) k hk
      simpa [annotateChange] using this

theorem mem_distinctTerms (entries : List GradeEntry) (t : Int) :
    t ∈ distinctTerms entries ↔ ∃ e ∈ entries, e.semester = t := by
  unfold distinctTerms
  rw [List.mem_insertionSort, List.mem_dedup, List.mem_map]

theorem nodup_distinctTerms (entries : List GradeEntry) :
    (distinctTerms entries).Nodup :=
  ((List.perm_insertionSort _ _).nodup_iff).mpr (List.nodup_dedup _)

theorem sorted_distinctTerms (entries : List GradeEntry) :
    (distinctTerms entries).Sorted (· < ·) :=
  (List.sorted_insertionSort _ _).lt_of_le (nodup_distinctTerms entries)

theorem termEntries_cons (e : GradeEntry) (rest : List GradeEntry) (t : Int) :
    termEntries (e :: rest) t =
      if e.semester = t then e :: termEntries rest t else termEntries rest t := by
  by_cases h : e.semester = t
  · have hb : (e.semester == t) = true := by simpa using h
    simp [termEntries, List.filter, hb, h]
  · have hb : (e.semester == t) = false := by simpa using h
    simp [termEntries, List.filter, hb, h]

theorem sum_map_add_over (g h : Int → ℚ) (ts : List Int) :
    (ts.map (fun t => g t + h t)).sum = (ts.map g).sum + (ts.map h).sum := by
  induction ts with
  | nil => simp
  | cons t ts ih => simp [ih]; ring

theorem sum_ite_not_mem (x : Int) (c : ℚ) (ts : List Int) (hx : x ∉ ts) :
    (ts.map (fun t => if x = t then c else 0)).sum = 0 := by
  induction ts with
  | nil => simp
  | cons t ts ih =>
    have hxt : x ≠ t := fun h => hx (h ▸ List.mem_cons_self t ts)
    have hxts : x ∉ ts := fun h => hx (List.mem_cons_of_mem t h)
    simp [hxt, ih hxts]

theorem sum_ite_mem (x : Int) (c : ℚ) (ts : List Int) (hnd : ts.Nodup)
    (hx : x ∈ ts) : (ts.map (fun t => if x = t then c else 0)).sum = c := by
  induction ts with
  | nil => simp at hx
  | cons t ts ih =>
    rcases List.mem_cons.mp hx with h | h
    · subst h
      have hnot : x ∉ ts := (List.nodup_cons.mp hnd).1
      simp [sum_ite_not_mem x c ts hnot]
    · have hxt : x ≠ t := by
        rintro rfl; exact (List.nodup_cons.mp hnd).1 h
      simp [hxt, ih (List.nodup_cons.mp hnd).2 h]

/-- Summing a per-group aggregate over the distinct group keys recovers the
sum over all rows: the groups of `groupby` partition the input. -/
theorem sum_partition (f : GradeEntry → ℚ) (ts : List Int)
    (entries : List GradeEntry) (hnd : ts.Nodup)
    (hcov : ∀ e ∈ entries, e.semester ∈ ts) :
    (ts.map (fun t => ((termEntries entries t).map f).sum)).sum =
      (entries.map f).sum := by
  induction entries with
  | nil => simp [termEntries]
  | cons e rest ih =>
    have hrest : ∀ x ∈ rest, x.semester ∈ ts := fun x hx =>
      hcov x (List.mem_cons_of_mem e hx)
    have hstep : ∀ t : Int, ((termEntries (e :: rest) t).map f).sum =
        (if e.semester = t then f e else 0) + ((termEntries rest t).map f).sum := by
      intro t
      rw [termEntries_cons]
      by_cases h : e.semester = t
      · simp [h]
      · simp [h]
    calc (ts.map (fun t => ((termEntries (e :: rest) t).map f).sum)).sum
        = (ts.map (fun t => (if e.semester = t then f e else 0) +
            ((termEntries rest t).map f).sum)).sum := by
          congr 1; exact List.map_congr_left (fun t _ => hstep t)
      _ = (ts.map (fun t => if e.semester = t then f e else 0)).sum +
            (ts.map (fun t => ((termEntries rest t).map f).sum)).sum :=
          sum_map_add_over _ _ ts
      _ = f e + (rest.map f).sum := by
          rw [sum_ite_mem e.semester (f e) ts hnd (hcov e (List.mem_cons_self e rest)),
            ih hrest]
      _ = ((e :: rest).map f).sum := by simp

/-- The summary rows carry exactly the distinct semesters, in the `groupby`
key order. -/
theorem map_term_summaries (entries : List GradeEntry) :
    (computeTermSummaries entries).map (fun s => s.term) = distinctTerms entries := by
  unfold computeTermSummaries
  rw [annotateChange_map (fun s => s.term) (fun s c => rfl), List.map_map]
  exact List.map_id _

theorem exS_ne_nil : exS ≠ [] := by simp [exS]

/-! ## Claims -/

/-- **C1.**  For every non-empty collection of grade entries, the Dashboard
IPK (src/app.py lines 143-147) equals the two-stage credit-weighted mean of
term averages: per term `term_average = Σ(score·credit)/Σ(credit)`, then
overall `Σ(term_average·credit_sum)/Σ(credit_sum)` over the term summaries;
and on a single-term input it equals that term's average exactly. -/
theorem dashboard_ipk_two_stage (entries : List GradeEntry) (_h : entries ≠ []) :
    ipk entries = overallAverageSpec (computeTermSummaries entries) ∧
    ∀ t : Int, distinctTerms entries = [t] → creditSum entries t ≠ 0 →
      ipk entries = termIP entries t := by
  constructor
  · unfold ipk overallAverageSpec computeTermSummaries
    rw [annotateChange_map (fun s => s.term_average * s.credit_sum) (fun s c => rfl),
      annotateChange_map (fun s => s.credit_sum) (fun s c => rfl),
      List.map_map, List.map_map]
    rfl
  · intro t ht hc
    unfold ipk
    rw [ht]
    simp only [List.map_cons, List.map_nil, List.sum_cons, List.sum_nil, add_zero]
    exact mul_div_cancel_right₀ _ hc

/-- Witness for C1 at the spec §8 scenario input. -/
theorem dashboard_ipk_two_stage_witness :
    ipk exS = overallAverageSpec (computeTermSummaries exS) :=
  (dashboard_ipk_two_stage exS exS_ne_nil).1

/-- **C2.**  For every non-empty collection of grade entries the per-term
summary has exactly one row per distinct semester present in the input
(strictly ascending row terms force at most one row per term; the membership
equivalence forces at least one), and the rows are ordered by ascending
term. -/
theorem termSummaries_one_row_per_term (entries : List GradeEntry)
    (_h : entries ≠ []) :
    ((computeTermSummaries entries).map (fun s => s.term)).Sorted (· < ·) ∧
    ∀ t : Int, (t ∈ (computeTermSummaries entries).map (fun s => s.term) ↔
      ∃ e ∈ entries, e.semester = t) := by
  rw [map_term_summaries]
  exact ⟨sorted_distinctTerms entries, fun t => mem_distinctTerms entries t⟩

/-- Witness for C2 at the spec §8 scenario input. -/
theorem termSummaries_one_row_per_term_witness :
    ((computeTermSummaries exS).map (fun s => s.term)).Sorted (· < ·) ∧
    (2 ∈ (computeTermSummaries exS).map (fun s => s.term) ↔
      ∃ e ∈ exS, e.semester = 2) :=
  ⟨(termSummaries_one_row_per_term exS exS_ne_nil).1,
    (termSummaries_one_row_per_term exS exS_ne_nil).2 2⟩

/-- **C3.**  In the summary rows (which are ordered by ascending term, third
conjunct), the `change` of the earliest row is null and the `change` of each
later row is its `term_average` minus the immediately preceding row's
`term_average` — the embedding of `ip_sem['change'] = ip_sem['ip'].diff()`
(src/app.py line 209). -/
theorem termSummaries_change_diff (entries : List GradeEntry) :
    (∀ h0 : 0 < (computeTermSummaries entries).length,
      ((computeTermSummaries entries).get ⟨0, h0⟩).change = none) ∧
    (∀ (i : Nat) (h : i + 1 < (computeTermSummaries entries).length),
      ((computeTermSummaries entries).get ⟨i + 1, h⟩).change =
        some (((computeTermSummaries entries).get ⟨i + 1, h⟩).term_average -
          ((computeTermSummaries entries).get ⟨i, Nat.lt_of_succ_lt h⟩).term_average)) ∧
    ((computeTermSummaries entries).map (fun s => s.term)).Sorted (· < ·) := by
  refine ⟨?_, ?_, ?_⟩
  · intro h0
    simpa using
      annotateChange_change_zero none ((distinctTerms entries).map (baseSummary entries)) h0
  · intro i h
    exact annotateChange_change_succ none _ i h
  · rw [map_term_summaries]; exact sorted_distinctTerms entries

/-- Witness for C3 at the spec §8 scenario input: the first row's change is
null and the second row's change is row₂.term_average − row₁.term_average. -/
theorem termSummaries_change_diff_witness :
    ((computeTermSummaries exS).get ⟨0, by decide⟩).change = none ∧
    ((computeTermSummaries exS).get ⟨1, by decide⟩).change =
      some (((computeTermSummaries exS).get ⟨1, by decide⟩).term_average -
        ((computeTermSummaries exS).get ⟨0, by decide⟩).term_average) :=
  ⟨(termSummaries_change_diff exS).1 (by decide),
    (termSummaries_change_diff exS).2.1 0 (by decide)⟩

theorem termEntries_exZ : termEntries exZ 1 = exZ := rfl

theorem creditSum_exZ : creditSum exZ 1 = 0 := by
  rw [creditSum, termEntries_exZ]
  norm_num [exZ]

/-- **C4, counterexample.**  A term whose total credit weight is zero does
not make the computation fail and is not skipped: on the one-entry input
`exZ` (term 1, credit 0) the summary still holds a row for term 1 — the
source has no zero-denominator guard (pandas evaluates the division,
yielding inf/NaN, and keeps the row). -/
theorem zero_credit_unguarded_cex :
    creditSum exZ 1 = 0 ∧ (computeTermSummaries exZ).map (fun s => s.term) = [1] :=
  ⟨creditSum_exZ, rfl⟩

/-- **C4, amended.**  A term with zero total credit weight is neither
rejected nor skipped: it still yields a summary row whose `term_average` is
the unguarded quotient `weighted_sum / credit_sum` with zero denominator (a
non-finite float in the source; ℚ's zero-denominator convention here). -/
theorem zero_credit_term_not_skipped (entries : List GradeEntry) (t : Int)
    (ht : t ∈ distinctTerms entries) (_hz : creditSum entries t = 0) :
    ∃ s ∈ computeTermSummaries entries, s.term = t ∧
      s.term_average = weightedSum entries t / creditSum entries t := by
  have hmem : (t, termIP entries t) ∈
      (computeTermSummaries entries).map (fun s => (s.term, s.term_average)) := by
    unfold computeTermSummaries
    rw [annotateChange_map (fun s => (s.term, s.term_average)) (fun s c => rfl),
      List.map_map]
    exact List.mem_map.mpr ⟨t, ht, rfl⟩
  rcases List.mem_map.mp hmem with ⟨s, hs, hpair⟩
  rw [Prod.mk.injEq] at hpair
  exact ⟨s, hs, hpair.1, hpair.2⟩

/-- Witness for the amended C4 at the zero-credit input `exZ`. -/
theorem zero_credit_term_not_skipped_witness :
    ∃ s ∈ computeTermSummaries exZ, s.term = 1 ∧
      s.term_average = weightedSum exZ 1 / creditSum exZ 1 :=
  zero_credit_term_not_skipped exZ 1 (by decide) creditSum_exZ

/-- **C5, counterexample.**  On a non-empty attendance input the Dashboard
metric is the mean *rounded to two decimals*, not the arithmetic mean: for
percents `[100, 80, 80]` the code yields `86.67` while the mean is `260/3 =
86.6̄`. -/
theorem attendance_mean_rounded_cex :
    avg_att [100, 80, 80] = 8667 / 100 ∧ percentMean [100, 80, 80] = 260 / 3 ∧
    (8667 / 100 : ℚ) ≠ 260 / 3 := by
  refine ⟨?_, ?_, by norm_num⟩
  · have h : ([100, 80, 80] : List ℚ) ≠ [] := List.cons_ne_nil _ _
    norm_num [avg_att, h, round2, percentMean, round_eq]
  · norm_num [percentMean]

/-- **C5, amended.**  The attendance metric returns the sentinel `0` on an
empty collection (not an error), and on every non-empty collection the
arithmetic mean of the percent values rounded to two decimal places. -/
theorem avg_att_spec :
    avg_att ([] : List ℚ) = 0 ∧
    ∀ ps : List ℚ, ps ≠ [] → avg_att ps = round2 (percentMean ps) := by
  refine ⟨by simp [avg_att], ?_⟩
  intro ps h
  simp [avg_att, h]

/-- Witness for the amended C5. -/
theorem avg_att_spec_witness :
    avg_att ([] : List ℚ) = 0 ∧
    avg_att [100, 80] = round2 (percentMean [100, 80]) :=
  ⟨avg_att_spec.1, avg_att_spec.2 [100, 80] (List.cons_ne_nil _ _)⟩

/-- **C10.**  When every term's total credit weight is nonzero, the
two-stage Dashboard IPK collapses to the single-pass per-entry weighted
mean `Σ(score·credit) / Σ(credit)` over all entries: the per-term weighting
by `credit_sum` cancels the per-term division, and the per-term group sums
repartition into the global sums. -/
theorem ipk_eq_single_pass (entries : List GradeEntry)
    (h : ∀ t ∈ distinctTerms entries, creditSum entries t ≠ 0) :
    ipk entries = (entries.map (fun e => e.grade * e.sks)).sum /
      (entries.map (fun e => e.sks)).sum := by
  unfold ipk
  have hcov : ∀ e ∈ entries, e.semester ∈ distinctTerms entries := fun e he =>
    (mem_distinctTerms entries e.semester).mpr ⟨e, he, rfl⟩
  have hnum : ((distinctTerms entries).map
      (fun t => termIP entries t * creditSum entries t)).sum =
      (entries.map (fun e => e.grade * e.sks)).sum := by
    calc ((distinctTerms entries).map
        (fun t => termIP entries t * creditSum entries t)).sum
        = ((distinctTerms entries).map (fun t => weightedSum entries t)).sum := by
          congr 1
          exact List.map_congr_left (fun t ht => div_mul_cancel₀ _ (h t ht))
      _ = (entries.map (fun e => e.grade * e.sks)).sum :=
          sum_partition _ _ entries (nodup_distinctTerms entries) hcov
  have hden : ((distinctTerms entries).map (fun t => creditSum entries t)).sum =
      (entries.map (fun e => e.sks)).sum :=
    sum_partition _ _ entries (nodup_distinctTerms entries) hcov
  rw [hnum, hden]

/-- Witness for C10 at the spec §8 scenario input (term credits 5 and 4,
both nonzero). -/
theorem ipk_eq_single_pass_witness :
    ipk exS = (exS.map (fun e => e.grade * e.sks)).sum /
      (exS.map (fun e => e.sks)).sum :=
  ipk_eq_single_pass exS (by
    intro t ht
    have hd : distinctTerms exS = [1, 2] := rfl
    have h1 : termEntries exS 1 =
      [⟨1, "MK101", "Algoritma", 3, 80⟩, ⟨1, "MK102", "Kalkulus", 2, 90⟩] := rfl
    have h2 : termEntries exS 2 = [⟨2, "MK201", "Basis Data", 4, 75⟩] := rfl
    rw [hd] at ht
    rcases List.mem_cons.mp ht with rfl | ht2
    · rw [creditSum, h1]; norm_num
    · rcases List.mem_cons.mp ht2 with rfl | h3
      · rw [creditSum, h2]; norm_num
      · simp at h3)

/-- Concrete store: the demo user, one persisted grade row, one persisted
attendance row. -/
def dbW : DB :=
  { users := [⟨"demo", "demo123", "Mahasiswa Demo"⟩]
    grades := [⟨1, "MK001", "Fisika", 2, some 85, 3⟩]
    attendance := [⟨"MK001", "Fisika", 80⟩] }

/-- Concrete attendance upload that does not contain the stored row. -/
def attW : List AttRow := [⟨"MK002", "Kimia", 50⟩]

/-- Concrete grade upload with two rows, grades present. -/
def csvW : List GradeCSVRow :=
  [⟨1, "MK101", "Algoritma", 3, some 80⟩, ⟨1, "MK102", "Kalkulus", 2, some 90⟩]

/-- Concrete grade upload whose `grade` column is missing (every parsed row
carries no grade value). -/
def csvNoGrade : List GradeCSVRow := [⟨2, "MK901", "Statistika", 3, none⟩]

/-- **C6.**  The attendance import is a full replace: afterwards the
attendance table holds exactly the uploaded rows, and any prior row absent
from the upload is gone (`to_sql(..., if_exists='replace')`,
src/app.py line 188). -/
theorem attendance_import_full_replace (db : DB) (df : List AttRow) :
    (replaceAttendance db df).attendance = df ∧
    ∀ r ∈ db.attendance, r ∉ df → r ∉ (replaceAttendance db df).attendance :=
  ⟨rfl, fun _ _ hnot => hnot⟩

/-- Witness for C6: the prior attendance row `MK001` is discarded by an
upload holding only `MK002`. -/
theorem attendance_import_full_replace_witness :
    (replaceAttendance dbW attW).attendance = attW ∧
    (⟨"MK001", "Fisika", 80⟩ : AttRow) ∉ (replaceAttendance dbW attW).attendance :=
  ⟨(attendance_import_full_replace dbW attW).1,
    (attendance_import_full_replace dbW attW).2 ⟨"MK001", "Fisika", 80⟩
      (by simp [dbW]) (by simp [attW])⟩

/-- **C7.**  The Admin wipe empties both the grades table and the attendance
table and leaves the users table unchanged (src/app.py lines 250-256). -/
theorem admin_reset_frame (db : DB) :
    (adminReset db).grades = [] ∧ (adminReset db).attendance = [] ∧
    (adminReset db).users = db.users :=
  ⟨rfl, rfl, rfl⟩

/-- **C8, counterexample.**  An upload whose `grade` column is missing is
*not* rejected and the store is *not* left unchanged: the source validates
nothing, `to_sql(..., if_exists='append')` lists only the frame's columns,
and sqlite fills the unlisted `grade` column of each inserted row with
NULL.  On the concrete store `dbG := dbW` the one-row no-grade upload is
appended (with `grade = none`) and the grades table changes. -/
theorem grade_import_missing_column_cex :
    (insert_grades dbW csvNoGrade 7).grades =
      dbW.grades ++ [⟨2, "MK901", "Statistika", 3, none, 7⟩] ∧
    (insert_grades dbW csvNoGrade 7).grades ≠ dbW.grades := by
  refine ⟨rfl, fun hcontra => ?_⟩
  have := congrArg List.length hcontra
  simp [insert_grades, dbW, csvNoGrade] at this

/-- **C8, amended.**  A grade import whose `grade` column is missing
succeeds: every uploaded row is appended to the grade store with a NULL
grade value and the shared timestamp; no error is raised and the prior rows
are kept. -/
theorem grade_import_missing_column_appends (db : DB) (df : List GradeCSVRow)
    (now : Nat) (hmiss : ∀ r ∈ df, r.grade = none) :
    (insert_grades db df now).grades = db.grades ++ df.map (stampRow now) ∧
    ∀ r ∈ df.map (stampRow now), r.grade = none := by
  refine ⟨rfl, ?_⟩
  intro r hr
  rcases List.mem_map.mp hr with ⟨x, hx, rfl⟩
  simpa [stampRow] using hmiss x hx

/-- Witness for the amended C8 at the concrete no-grade upload. -/
theorem grade_import_missing_column_appends_witness :
    (insert_grades dbW csvNoGrade 7).grades =
      dbW.grades ++ csvNoGrade.map (stampRow 7) ∧
    ∀ r ∈ csvNoGrade.map (stampRow 7), r.grade = none :=
  grade_import_missing_column_appends dbW csvNoGrade 7 (by simp [csvNoGrade])

/-- **C9.**  One call to the grade-append operation stamps every inserted
row with the single timestamp of the call
(`df['created_at'] = datetime.now().isoformat()`, one value for the whole
frame) and only appends: the prior grade rows survive unchanged as the
prefix of the table, and the other tables are untouched
(src/app.py lines 75-80). -/
theorem insert_grades_append_same_stamp (db : DB) (df : List GradeCSVRow)
    (now : Nat) :
    (insert_grades db df now).grades = db.grades ++ df.map (stampRow now) ∧
    (∀ r ∈ df.map (stampRow now), r.created_at = now) ∧
    (insert_grades db df now).users = db.users ∧
    (insert_grades db df now).attendance = db.attendance := by
  refine ⟨rfl, ?_, rfl, rfl⟩
  intro r hr
  rcases List.mem_map.mp hr with ⟨x, hx, rfl⟩
  rfl

/-- Witness for C9 at a concrete two-row upload. -/
theorem insert_grades_append_same_stamp_witness :
    (insert_grades dbW csvW 5).grades = dbW.grades ++ csvW.map (stampRow 5) ∧
    (stampRow 5 ⟨1, "MK101", "Algoritma", 3, some 80⟩).created_at = 5 :=
  ⟨(insert_grades_append_same_stamp dbW csvW 5).1,
    (insert_grades_append_same_stamp dbW csvW 5).2.1
      (stampRow 5 ⟨1, "MK101", "Algoritma", 3, some 80⟩)
      (List.mem_map.mpr ⟨⟨1, "MK101", "Algoritma", 3, some 80⟩,
        List.mem_cons_self _ _, rfl⟩)⟩

end Akademik
